import Mathlib

/-!
# Repository resource (`pkg/resources/repository.go`)

A shallow embedding of the four CRUD callbacks of the `repository` resource:
`resourceRepositoryCreate`, `resourceRepositoryRead`, `resourceRepositoryUpdate`
and `resourceRepositoryDelete`.

Conventions of the embedding.

* A Go `string` is a `List Char` (the code points of a valid UTF-8 text).  The
  string functions the file uses (`strings.Split` on a separator,
  `strings.HasPrefix`, concatenation through `fmt.Sprintf`) give the same
  answer on bytes and on code points of valid UTF-8.
* The API client `*dbt_cloud.Client` lives in another package.  It is a
  parameter: four functions over an abstract remote state.  Every call the
  resource makes is appended to a log, so that "which calls were made, with
  which arguments, in which order" can be stated.
* `schema.ResourceData` is a record with one typed field per schema entry, the
  resource id, and the answer of `d.HasChange("is_active")`.
* A Go run-time panic (index out of range, nil dereference) is an explicit
  result.
-/

namespace DbtCloud

/-- A Go string: the list of its characters. -/
abbrev GoString := List Char

/-! ## Go standard library: `strings` and `fmt` -/

/-- Go `strings.HasPrefix(s, p)`: `len(s) >= len(p) && s[:len(p)] == p`. -/
def HasPrefix (s p : GoString) : Bool :=
  decide (p.length ≤ s.length) && decide (s.take p.length = p)

/-- Go `strings.Index(s, sep)`: the position of the first occurrence of `sep` in
`s`, `none` standing for Go's `-1`. -/
def Index : GoString → GoString → Option Nat
  | [], sep => if sep = [] then some 0 else none
  | c :: cs, sep =>
    if HasPrefix (c :: cs) sep then some 0
    else (Index cs sep).map (fun i => i + 1)

/-- The loop of `strings.Count` for a non-empty `substr`:
`for { i := Index(s, substr); if i == -1 { return n }; n++; s = s[i+len(substr):] }`.
Every iteration that continues removes at least one character of `s`, so the
loop ends within `len(s) + 1` iterations; the first argument bounds them. -/
def countLoop (substr : GoString) : Nat → GoString → Nat
  | 0, _ => 0
  | fuel + 1, s =>
    match Index s substr with
    | none => 0
    | some i => countLoop substr fuel (s.drop (i + substr.length)) + 1

/-- Go `strings.Count(s, substr)`: the number of non-overlapping occurrences of
`substr` in `s`; for the empty `substr`, the number of characters plus one. -/
def Count (s substr : GoString) : Nat :=
  if substr = [] then s.length + 1 else countLoop substr (s.length + 1) s

/-- Go `explode(s, -1)` of package `strings`: one string per character. -/
def explode (s : GoString) : List GoString :=
  s.map (fun c => [c])

/-- The loop of `genSplit`, run for at most `n` further iterations:
`for i < n { m := Index(s, sep); if m < 0 { break }; a[i] = s[:m]; s = s[m+len(sep):]; i++ }; a[i] = s`. -/
def splitLoop (sep : GoString) : Nat → GoString → List GoString
  | 0, s => [s]
  | n + 1, s =>
    match Index s sep with
    | none => [s]
    | some m => s.take m :: splitLoop sep n (s.drop (m + sep.length))

/-- Go `strings.Split(s, sep)`, that is `genSplit(s, sep, 0, -1)`: for an empty
separator `explode`; otherwise `n = Count(s, sep) + 1`, capped at `len(s) + 1`,
and the loop runs while `i < n - 1`. -/
def Split (s sep : GoString) : List GoString :=
  if sep = [] then explode s
  else splitLoop sep (min (Count s sep + 1) (s.length + 1) - 1) s

/-- Go `fmt.Sprintf("%d", n)` for an `int`: the decimal digits, with a leading
minus sign for a negative number. -/
def fmtInt (n : Int) : GoString :=
  if n < 0 then '-' :: Nat.toDigits 10 n.natAbs else Nat.toDigits 10 n.toNat

/-! ## The API client (`dbt_cloud` package) and the plugin SDK -/

/-- Constants of the `dbt_cloud` package that the resource refers to:
`dbt_cloud.ID_DELIMITER`, `dbt_cloud.STATE_ACTIVE`, `dbt_cloud.STATE_DELETED`.
Their values are declared outside this file; they are parameters here. -/
structure Consts where
  ID_DELIMITER : GoString
  STATE_ACTIVE : Int
  STATE_DELETED : Int

/-- The `DeployKey` member of a repository record. -/
structure DeployKey where
  PublicKey : GoString
deriving DecidableEq, Repr

/-- Modelled from the spec: the record type `dbt_cloud.Repository`, declared
outside this file, with the shape of section 6, `{ ID, ProjectID, RemoteUrl,
GitCloneStrategy, RepositoryCredentialsID, GithubInstallationID, State,
DeployKey{PublicKey} }`.  `ID` is a pointer in the source (`*repository.ID`);
the three integer members that go to `d.Set` unchanged are optional values,
`none` being a nil pointer.  `DeployKey` is always present: the source reads
`repository.DeployKey.PublicKey` without a nil check.  `Rest` stands for every
member of the record that this file never names. -/
structure Repository (ρ : Type) where
  ID : Option Int
  ProjectID : Int
  RemoteUrl : GoString
  GitCloneStrategy : GoString
  RepositoryCredentialsID : Option Int
  GithubInstallationID : Option Int
  State : Int
  DeployKey : DeployKey
  Rest : ρ
deriving DecidableEq, Repr

/-- A Go `error` value, seen through its `Error()` message. -/
structure GoError where
  Error : GoString
deriving DecidableEq, Repr

/-- The API client: its four operations, each a function of the remote state
that returns a result or an error together with the next remote state.  A call
returns either a value or a non-nil error, never both and never neither. -/
structure Client (ρ σ : Type) where
  CreateRepository : σ → Int → GoString → Bool → GoString → Int → Int → GoString →
    GoString → Bool → Except GoError (Repository ρ) × σ
  GetRepository : σ → GoString → GoString → Bool → Except GoError (Repository ρ) × σ
  UpdateRepository : σ → GoString → GoString → Repository ρ →
    Except GoError (Repository ρ) × σ
  DeleteRepository : σ → GoString → GoString → Except GoError Unit × σ

/-- One call to the client, with its arguments in the order of the call. -/
inductive Call (ρ : Type) where
  | create (projectID : Int) (remoteUrl : GoString) (isActive : Bool)
      (gitCloneStrategy : GoString) (gitlabProjectID githubInstallationID : Int)
      (azureActiveDirectoryProjectID azureActiveDirectoryRepositoryID : GoString)
      (azureBypassWebhookRegistrationFailure : Bool)
  | get (repositoryID projectID : GoString) (fetchDeployKey : Bool)
  | update (repositoryID projectID : GoString) (repository : Repository ρ)
  | delete (repositoryID projectID : GoString)
deriving DecidableEq, Repr

/-- The remote state together with the log of the calls made so far, oldest
first. -/
structure World (ρ σ : Type) where
  remote : σ
  calls : List (Call ρ)

/-- The SDK type `diag.Severity`. -/
inductive Severity where
  | Error
  | Warning
deriving DecidableEq, Repr

/-- The SDK type `diag.Diagnostic`, with the two members `diag.FromErr` fills. -/
structure Diagnostic where
  Severity : Severity
  Summary : GoString
deriving DecidableEq, Repr

/-- The SDK type `diag.Diagnostics`. -/
abbrev Diagnostics := List Diagnostic

/-- The SDK function `diag.FromErr(err)` for a non-nil error: one diagnostic of severity `Error`
whose summary is `err.Error()`. -/
def FromErr (err : GoError) : Diagnostics :=
  [{ Severity := Severity.Error, Summary := err.Error }]

/-- The SDK type `*schema.ResourceData` for the schema of `ResourceRepository`: the resource
id (`d.Id()`), the value `d.Get` returns for each of the thirteen schema
entries, and the answer of `d.HasChange("is_active")`.  A computed integer that
was set from a nil pointer is `none`. -/
structure ResourceData where
  Id : GoString
  repository_id : Option Int
  is_active : Bool
  project_id : Int
  remote_url : GoString
  git_clone_strategy : GoString
  repository_credentials_id : Option Int
  gitlab_project_id : Int
  github_installation_id : Option Int
  azure_active_directory_project_id : GoString
  azure_active_directory_repository_id : GoString
  azure_bypass_webhook_registration_failure : Bool
  fetch_deploy_key : Bool
  deploy_key : GoString
  HasChange_is_active : Bool
deriving DecidableEq, Repr

/-- How a callback ends: with a Go run-time panic, or by returning its
diagnostics. -/
inductive Result where
  | panic
  | returned (diags : Diagnostics)
deriving DecidableEq, Repr

/-- What a callback leaves behind: its result, the resource data and the
world. -/
structure Outcome (ρ σ : Type) where
  result : Result
  d : ResourceData
  w : World ρ σ

variable {ρ σ : Type}

/-- The call `c.CreateRepository(...)`, logged. -/
def Client.create (c : Client ρ σ) (w : World ρ σ) (projectID : Int) (remoteUrl : GoString)
    (isActive : Bool) (gitCloneStrategy : GoString) (gitlabProjectID githubInstallationID : Int)
    (adoProjectID adoRepositoryID : GoString) (adoBypass : Bool) :
    Except GoError (Repository ρ) × World ρ σ :=
  let r := c.CreateRepository w.remote projectID remoteUrl isActive gitCloneStrategy
    gitlabProjectID githubInstallationID adoProjectID adoRepositoryID adoBypass
  (r.1, ⟨r.2, w.calls ++ [Call.create projectID remoteUrl isActive gitCloneStrategy
    gitlabProjectID githubInstallationID adoProjectID adoRepositoryID adoBypass]⟩)

/-- The call `c.GetRepository(repositoryID, projectID, fetchDeployKey)`, logged. -/
def Client.get (c : Client ρ σ) (w : World ρ σ) (repositoryID projectID : GoString)
    (fetchDeployKey : Bool) : Except GoError (Repository ρ) × World ρ σ :=
  let r := c.GetRepository w.remote repositoryID projectID fetchDeployKey
  (r.1, ⟨r.2, w.calls ++ [Call.get repositoryID projectID fetchDeployKey]⟩)

/-- The call `c.UpdateRepository(repositoryID, projectID, repository)`, logged. -/
def Client.update (c : Client ρ σ) (w : World ρ σ) (repositoryID projectID : GoString)
    (repository : Repository ρ) : Except GoError (Repository ρ) × World ρ σ :=
  let r := c.UpdateRepository w.remote repositoryID projectID repository
  (r.1, ⟨r.2, w.calls ++ [Call.update repositoryID projectID repository]⟩)

/-- The call `c.DeleteRepository(repositoryID, projectID)`, logged. -/
def Client.delete (c : Client ρ σ) (w : World ρ σ) (repositoryID projectID : GoString) :
    Except GoError Unit × World ρ σ :=
  let r := c.DeleteRepository w.remote repositoryID projectID
  (r.1, ⟨r.2, w.calls ++ [Call.delete repositoryID projectID]⟩)

/-! ## The four callbacks -/

/-- The callback `resourceRepositoryRead`.  Each `d.Set` names an entry of the schema with a
value of the entry's type, so none of them returns an error. -/
def resourceRepositoryRead (k : Consts) (c : Client ρ σ) (d : ResourceData) (w : World ρ σ) :
    Outcome ρ σ :=
  match (Split d.Id k.ID_DELIMITER)[0]? with
  | none => ⟨Result.panic, d, w⟩
  | some projectIdString =>
  match (Split d.Id k.ID_DELIMITER)[1]? with
  | none => ⟨Result.panic, d, w⟩
  | some repositoryIdString =>
  let fetchDeployKey := d.fetch_deploy_key
  match c.get w repositoryIdString projectIdString fetchDeployKey with
  | (Except.error err, w1) =>
    if HasPrefix err.Error "resource-not-found".toList then
      ⟨Result.returned [], { d with Id := [] }, w1⟩
    else
      ⟨Result.returned (FromErr err), d, w1⟩
  | (Except.ok repository, w1) =>
    let d := { d with repository_id := repository.ID }
    let d := { d with is_active := decide (repository.State = k.STATE_ACTIVE) }
    let d := { d with project_id := repository.ProjectID }
    let d := { d with remote_url := repository.RemoteUrl }
    let d := { d with git_clone_strategy := repository.GitCloneStrategy }
    let d := { d with repository_credentials_id := repository.RepositoryCredentialsID }
    let d := { d with gitlab_project_id := d.gitlab_project_id }
    let d := { d with github_installation_id := repository.GithubInstallationID }
    let d := { d with deploy_key := repository.DeployKey.PublicKey }
    let d := { d with
      azure_active_directory_project_id := d.azure_active_directory_project_id }
    let d := { d with
      azure_active_directory_repository_id := d.azure_active_directory_repository_id }
    let d := { d with
      azure_bypass_webhook_registration_failure := d.azure_bypass_webhook_registration_failure }
    ⟨Result.returned [], d, w1⟩

/-- The callback `resourceRepositoryCreate`.  `d.Get("github_installation_id").(int)` reads an
unset integer as `0`.  The diagnostics of the trailing
`resourceRepositoryRead(ctx, d, m)` are dropped: the function returns its own,
empty, `diags`. -/
def resourceRepositoryCreate (k : Consts) (c : Client ρ σ) (d : ResourceData) (w : World ρ σ) :
    Outcome ρ σ :=
  let isActive := d.is_active
  let projectId := d.project_id
  let remoteUrl := d.remote_url
  let gitCloneStrategy := d.git_clone_strategy
  let gitlabProjectID := d.gitlab_project_id
  let githubInstallationID := d.github_installation_id.getD 0
  let azureActiveDirectoryProjectID := d.azure_active_directory_project_id
  let azureActiveDirectoryRepositoryID := d.azure_active_directory_repository_id
  let azureBypassWebhookRegistrationFailure := d.azure_bypass_webhook_registration_failure
  match c.create w projectId remoteUrl isActive gitCloneStrategy gitlabProjectID
      githubInstallationID azureActiveDirectoryProjectID azureActiveDirectoryRepositoryID
      azureBypassWebhookRegistrationFailure with
  | (Except.error err, w1) => ⟨Result.returned (FromErr err), d, w1⟩
  | (Except.ok repository, w1) =>
    match repository.ID with
    | none => ⟨Result.panic, d, w1⟩
    | some repositoryID =>
      let d := { d with
        Id := fmtInt repository.ProjectID ++ k.ID_DELIMITER ++ fmtInt repositoryID }
      let o := resourceRepositoryRead k c d w1
      match o.result with
      | Result.panic => o
      | Result.returned _ => ⟨Result.returned [], o.d, o.w⟩

/-- The callback `resourceRepositoryUpdate`.  `d.Get("is_active")` is the planned
value; `d.HasChange("is_active")` is asked twice, as in the source. -/
def resourceRepositoryUpdate (k : Consts) (c : Client ρ σ) (d : ResourceData) (w : World ρ σ) :
    Outcome ρ σ :=
  match (Split d.Id k.ID_DELIMITER)[0]? with
  | none => ⟨Result.panic, d, w⟩
  | some projectIdString =>
  match (Split d.Id k.ID_DELIMITER)[1]? with
  | none => ⟨Result.panic, d, w⟩
  | some repositoryIdString =>
  let fetchDeployKey := d.fetch_deploy_key
  if d.HasChange_is_active then
    match c.get w repositoryIdString projectIdString fetchDeployKey with
    | (Except.error err, w1) => ⟨Result.returned (FromErr err), d, w1⟩
    | (Except.ok repository, w1) =>
      let repository :=
        if d.HasChange_is_active then
          let isActive := d.is_active
          if isActive then { repository with State := k.STATE_ACTIVE }
          else { repository with State := k.STATE_DELETED }
        else repository
      match c.update w1 repositoryIdString projectIdString repository with
      | (Except.error err, w2) => ⟨Result.returned (FromErr err), d, w2⟩
      | (Except.ok _, w2) => resourceRepositoryRead k c d w2
  else
    resourceRepositoryRead k c d w

/-- The callback `resourceRepositoryDelete`. -/
def resourceRepositoryDelete (k : Consts) (c : Client ρ σ) (d : ResourceData) (w : World ρ σ) :
    Outcome ρ σ :=
  match (Split d.Id k.ID_DELIMITER)[0]? with
  | none => ⟨Result.panic, d, w⟩
  | some projectIdString =>
  match (Split d.Id k.ID_DELIMITER)[1]? with
  | none => ⟨Result.panic, d, w⟩
  | some repositoryIdString =>
  match c.delete w repositoryIdString projectIdString with
  | (Except.error err, w1) => ⟨Result.returned (FromErr err), d, w1⟩
  | (Except.ok _, w1) => ⟨Result.returned [], d, w1⟩

/-! ## The two components of a composite id -/

/-- The value of `projectIdString := strings.Split(d.Id(), ID_DELIMITER)[0]`
when the index is in range. -/
def projectIdString (k : Consts) (id : GoString) : GoString :=
  (Split id k.ID_DELIMITER).getD 0 []

/-- The value of `repositoryIdString := strings.Split(d.Id(), ID_DELIMITER)[1]`
when the index is in range. -/
def repositoryIdString (k : Consts) (id : GoString) : GoString :=
  (Split id k.ID_DELIMITER).getD 1 []

/-- The state `resourceRepositoryUpdate` writes for a wanted `is_active`. -/
def stateOf (k : Consts) (isActive : Bool) : Int :=
  if isActive then k.STATE_ACTIVE else k.STATE_DELETED

/-! ## Worlds and records that the callbacks leave behind -/

/-- The world after one more `GetRepository` call. -/
def afterGet (w : World ρ σ) (s1 : σ) (rid pid : GoString) (fdk : Bool) : World ρ σ :=
  ⟨s1, w.calls ++ [Call.get rid pid fdk]⟩

/-- The record `resourceRepositoryRead` leaves after a successful fetch of `r`. -/
def readInto (k : Consts) (d : ResourceData) (r : Repository ρ) : ResourceData :=
  { d with
    repository_id := r.ID
    is_active := decide (r.State = k.STATE_ACTIVE)
    project_id := r.ProjectID
    remote_url := r.RemoteUrl
    git_clone_strategy := r.GitCloneStrategy
    repository_credentials_id := r.RepositoryCredentialsID
    github_installation_id := r.GithubInstallationID
    deploy_key := r.DeployKey.PublicKey }

/-- The world after the fetch and the `UpdateRepository` call of an update. -/
def afterUpdate (k : Consts) (d : ResourceData) (w : World ρ σ) (s2 : σ) (rid pid : GoString)
    (r : Repository ρ) : World ρ σ :=
  ⟨s2, w.calls ++ [Call.get rid pid d.fetch_deploy_key] ++
    [Call.update rid pid { r with State := stateOf k d.is_active }]⟩

/-- The world after the `CreateRepository` call of a creation from `d`. -/
def afterCreate (d : ResourceData) (w : World ρ σ) (s1 : σ) : World ρ σ :=
  ⟨s1, w.calls ++ [Call.create d.project_id d.remote_url d.is_active d.git_clone_strategy
    d.gitlab_project_id (d.github_installation_id.getD 0) d.azure_active_directory_project_id
    d.azure_active_directory_repository_id d.azure_bypass_webhook_registration_failure]⟩

/-! ## Concrete clients and records, used to run the callbacks -/

/-- Constants for the examples: the delimiter `-` of the example in the spec,
and 1 and 2 for the states ACTIVE and DELETED. -/
def exConsts : Consts := ⟨"-".toList, 1, 2⟩

/-- The repository record of the example in the spec. -/
def exRepo : Repository Unit :=
  { ID := some 55, ProjectID := 10, RemoteUrl := "git@example.com:org/repo.git".toList,
    GitCloneStrategy := "deploy_key".toList, RepositoryCredentialsID := some 99,
    GithubInstallationID := none, State := 1, DeployKey := ⟨[]⟩, Rest := () }

/-- The configuration of the example in the spec, before creation. -/
def exConfig : ResourceData :=
  { Id := [], repository_id := none, is_active := true, project_id := 10,
    remote_url := "git@example.com:org/repo.git".toList,
    git_clone_strategy := "deploy_key".toList, repository_credentials_id := none,
    gitlab_project_id := 7, github_installation_id := none,
    azure_active_directory_project_id := "ado-p".toList,
    azure_active_directory_repository_id := "ado-r".toList,
    azure_bypass_webhook_registration_failure := true, fetch_deploy_key := false,
    deploy_key := [], HasChange_is_active := false }

/-- A client over a store holding at most one record: create stores `exRepo`,
get returns the stored record or a not-found error, update stores the record it
is sent, delete empties the store. -/
def storeClient : Client Unit (Option (Repository Unit)) where
  CreateRepository := fun _ _ _ _ _ _ _ _ _ _ => (Except.ok exRepo, some exRepo)
  GetRepository := fun s _ _ _ =>
    match s with
    | some r => (Except.ok r, s)
    | none => (Except.error ⟨"resource-not-found: repository 55".toList⟩, s)
  UpdateRepository := fun _ _ _ r => (Except.ok r, some r)
  DeleteRepository := fun _ _ _ => (Except.ok (), none)

/-- A client whose create succeeds with `exRepo` and whose every other call
fails with the given message. -/
def failingClient (msg : GoString) : Client Unit Unit where
  CreateRepository := fun _ _ _ _ _ _ _ _ _ _ => (Except.ok exRepo, ())
  GetRepository := fun _ _ _ _ => (Except.error ⟨msg⟩, ())
  UpdateRepository := fun _ _ _ _ => (Except.error ⟨msg⟩, ())
  DeleteRepository := fun _ _ _ => (Except.error ⟨msg⟩, ())

/-- A client whose fetch succeeds with `exRepo` exactly when the remote state
is `true`, and whose update and delete always fail with `forbidden`. -/
def readOnlyClient : Client Unit Bool where
  CreateRepository := fun s _ _ _ _ _ _ _ _ _ => (Except.error ⟨"forbidden".toList⟩, s)
  GetRepository := fun s _ _ _ =>
    if s then (Except.ok exRepo, s) else (Except.error ⟨"timeout".toList⟩, s)
  UpdateRepository := fun s _ _ _ => (Except.error ⟨"forbidden".toList⟩, s)
  DeleteRepository := fun s _ _ => (Except.error ⟨"forbidden".toList⟩, s)

/-- The record of the example once created: `exConfig` with the id `10-55`. -/
def exCreated : ResourceData :=
  { exConfig with
    Id := "10-55".toList
    repository_id := some 55
    repository_credentials_id := some 99 }

/-- A record in the DELETED state whose other members differ from those of
`exConfig`. -/
def exDeleted : Repository Unit :=
  { ID := some 55, ProjectID := 10, RemoteUrl := "git@example.com:org/other.git".toList,
    GitCloneStrategy := "github_app".toList, RepositoryCredentialsID := some 100,
    GithubInstallationID := some 4, State := 2, DeployKey := ⟨"ssh-rsa AAAA".toList⟩,
    Rest := () }

/-- The record `10-55` with a planned change of is_active from true to
false. -/
def exToggled : ResourceData :=
  { exCreated with
    is_active := false
    HasChange_is_active := true }

/-- The record `10-55`, stored as inactive, with a planned change of is_active
from false to true. -/
def exReactivated : ResourceData :=
  { exCreated with
    is_active := true
    HasChange_is_active := true }

/-- A client that accepts every update without applying it: its fetch always
answers `exRepo`, in the ACTIVE state. -/
def staleClient : Client Unit Unit where
  CreateRepository := fun _ _ _ _ _ _ _ _ _ _ => (Except.ok exRepo, ())
  GetRepository := fun _ _ _ _ => (Except.ok exRepo, ())
  UpdateRepository := fun _ _ _ r => (Except.ok r, ())
  DeleteRepository := fun _ _ _ => (Except.ok (), ())

/-! ## Facts about the string functions -/

theorem HasPrefix_iff (s p : GoString) : HasPrefix s p = true ↔ p <+: s := by
  unfold HasPrefix
  simp only [Bool.and_eq_true, decide_eq_true_eq]
  constructor
  · rintro ⟨_, h⟩
    exact List.prefix_iff_eq_take.2 h.symm
  · intro h
    exact ⟨h.length_le, (List.prefix_iff_eq_take.1 h).symm⟩

theorem Index_eq_none {sep : GoString} : ∀ s : GoString, Index s sep = none → ¬ sep <:+: s
  | [], h => by
    unfold Index at h
    split at h
    · cases h
    · simpa using ‹¬ sep = []›
  | c :: cs, h => by
    unfold Index at h
    split at h
    · cases h
    · rename_i hp
      have hcs : Index cs sep = none := by
        cases hi : Index cs sep with
        | none => rfl
        | some i => rw [hi] at h; cases h
      rw [List.infix_cons_iff]
      rintro (h1 | h2)
      · exact hp ((HasPrefix_iff _ _).2 h1)
      · exact Index_eq_none cs hcs h2

theorem Index_eq_some {sep : GoString} :
    ∀ (s : GoString) (m : Nat), Index s sep = some m →
      s = s.take m ++ sep ++ s.drop (m + sep.length)
  | [], m, h => by
    unfold Index at h
    split at h
    · rename_i hs
      subst hs
      simp
    · cases h
  | c :: cs, m, h => by
    unfold Index at h
    split at h
    · rename_i hp
      cases h
      have := List.prefix_iff_eq_append.1 ((HasPrefix_iff _ _).1 hp)
      simpa using this.symm
    · cases hi : Index cs sep with
      | none => rw [hi] at h; cases h
      | some i =>
        rw [hi] at h
        cases h
        have ih := Index_eq_some cs i hi
        have e : i + 1 + sep.length = (i + sep.length) + 1 := by omega
        rw [e, List.take_succ_cons, List.drop_succ_cons]
        simpa using ih

theorem Index_isSome_iff {sep : GoString} (s : GoString) :
    (Index s sep).isSome = true ↔ sep <:+: s := by
  constructor
  · intro h
    obtain ⟨m, hm⟩ := Option.isSome_iff_exists.1 h
    have := Index_eq_some s m hm
    exact ⟨s.take m, s.drop (m + sep.length), this.symm⟩
  · intro h
    cases hi : Index s sep with
    | none => exact absurd h (Index_eq_none s hi)
    | some m => rfl

/-- A found separator leaves a strictly shorter rest. -/
theorem drop_after_Index_lt {sep s : GoString} {m : Nat} (hsep : sep ≠ [])
    (h : Index s sep = some m) : (s.drop (m + sep.length)).length < s.length := by
  have hinf : sep <:+: s := (Index_isSome_iff s).1 (by rw [h]; rfl)
  have h1 := List.length_pos.2 hsep
  have h2 := hinf.length_le
  simp only [List.length_drop]
  omega

/-- The bound given to the loop of `Count` is never reached: any two bounds
above the length of the string give the same count. -/
theorem countLoop_bound_irrelevant {sep : GoString} (hsep : sep ≠ []) :
    ∀ (f1 f2 : Nat) (s : GoString), s.length < f1 → s.length < f2 →
      countLoop sep f1 s = countLoop sep f2 s
  | 0, _, _, h1, _ => absurd h1 (Nat.not_lt_zero _)
  | _ + 1, 0, _, _, h2 => absurd h2 (Nat.not_lt_zero _)
  | f1 + 1, f2 + 1, s, h1, h2 => by
    unfold countLoop
    cases hi : Index s sep with
    | none => rfl
    | some m =>
      have hlt := drop_after_Index_lt hsep hi
      simp only
      rw [countLoop_bound_irrelevant hsep f1 f2 _ (by omega) (by omega)]

/-- With a non-empty separator there are at most as many occurrences as
characters. -/
theorem countLoop_le_length {sep : GoString} (hsep : sep ≠ []) :
    ∀ (f : Nat) (s : GoString), countLoop sep f s ≤ s.length
  | 0, _ => Nat.zero_le _
  | f + 1, s => by
    unfold countLoop
    cases hi : Index s sep with
    | none => exact Nat.zero_le _
    | some m =>
      have hlt := drop_after_Index_lt hsep hi
      have ih := countLoop_le_length hsep f (s.drop (m + sep.length))
      simp only
      omega

/-- The cap `len(s) + 1` of `genSplit` never binds for a non-empty separator:
the loop of `Split` is allowed `Count(s, sep)` iterations. -/
theorem Split_eq_splitLoop_Count {sep : GoString} (hsep : sep ≠ []) (s : GoString) :
    Split s sep = splitLoop sep (Count s sep) s := by
  have h : Count s sep ≤ s.length := by
    unfold Count
    rw [if_neg hsep]
    exact countLoop_le_length hsep _ s
  unfold Split
  rw [if_neg hsep]
  congr 1
  omega

theorem splitLoop_of_Index_none {sep s : GoString} (n : Nat) (h : Index s sep = none) :
    splitLoop sep n s = [s] := by
  cases n with
  | zero => rfl
  | succ n => simp [splitLoop, h]

theorem splitLoop_ne_nil (sep : GoString) (n : Nat) (s : GoString) : splitLoop sep n s ≠ [] := by
  cases n with
  | zero => simp [splitLoop]
  | succ n =>
    unfold splitLoop
    split <;> simp

/-- The number of iterations `Split` allows is positive as soon as the
separator occurs. -/
theorem Split_bound_pos {sep s : GoString} {m : Nat} (hsep : sep ≠ [])
    (h : Index s sep = some m) : ∃ n, min (Count s sep + 1) (s.length + 1) - 1 = n + 1 := by
  have hinf : sep <:+: s := (Index_isSome_iff s).1 (by rw [h]; rfl)
  have hlen : 1 ≤ s.length :=
    le_trans (List.length_pos.2 hsep) hinf.length_le
  have hc : 1 ≤ Count s sep := by
    unfold Count
    rw [if_neg hsep]
    simp [countLoop, h]
  exact ⟨min (Count s sep + 1) (s.length + 1) - 2, by omega⟩

/-- With a non-empty separator `Split` always returns at least one string. -/
theorem Split_zero_isSome {sep : GoString} (hsep : sep ≠ []) (s : GoString) :
    ∃ a, (Split s sep)[0]? = some a := by
  unfold Split
  rw [if_neg hsep]
  cases hl : splitLoop sep (min (Count s sep + 1) (s.length + 1) - 1) s with
  | nil => exact absurd hl (splitLoop_ne_nil _ _ _)
  | cons a l => exact ⟨a, by simp⟩

/-- With a non-empty separator `Split` returns a second string exactly when the
separator occurs in the string. -/
theorem Split_one_isSome_iff {sep : GoString} (hsep : sep ≠ []) (s : GoString) :
    (∃ b, (Split s sep)[1]? = some b) ↔ sep <:+: s := by
  unfold Split
  rw [if_neg hsep]
  cases hi : Index s sep with
  | none =>
    rw [splitLoop_of_Index_none _ hi]
    constructor
    · rintro ⟨b, hb⟩
      simp at hb
    · intro h
      exact absurd h (Index_eq_none s hi)
  | some m =>
    obtain ⟨n, hn⟩ := Split_bound_pos hsep hi
    rw [hn]
    constructor
    · intro _
      exact (Index_isSome_iff s).1 (by rw [hi]; rfl)
    · intro _
      simp only [splitLoop, hi]
      cases hl : splitLoop sep n (s.drop (m + sep.length)) with
      | nil => exact absurd hl (splitLoop_ne_nil _ _ _)
      | cons b l => exact ⟨b, by simp⟩

theorem Split_one_eq_none {sep : GoString} (hsep : sep ≠ []) (s : GoString)
    (h : ¬ sep <:+: s) : (Split s sep)[1]? = none := by
  cases hb : (Split s sep)[1]? with
  | none => rfl
  | some b => exact absurd ((Split_one_isSome_iff hsep s).1 ⟨b, hb⟩) h

theorem digitChar_isDigit {n : Nat} (h : n < 10) : (Nat.digitChar n).isDigit = true := by
  interval_cases n <;> rfl

theorem toDigitsCore_isDigit :
    ∀ (fuel n : Nat) (ds : List Char), (∀ c ∈ ds, c.isDigit = true) →
      ∀ c ∈ Nat.toDigitsCore 10 fuel n ds, c.isDigit = true
  | 0, _, ds, h => by simpa [Nat.toDigitsCore] using h
  | fuel + 1, n, ds, h => by
    have hd : ∀ c ∈ Nat.digitChar (n % 10) :: ds, c.isDigit = true := by
      intro c hc
      rcases List.mem_cons.1 hc with rfl | hc
      · exact digitChar_isDigit (Nat.mod_lt _ (by decide))
      · exact h c hc
    unfold Nat.toDigitsCore
    dsimp only
    split
    · exact hd
    · exact toDigitsCore_isDigit fuel (n / 10) _ hd

theorem toDigitsCore_ne_nil (fuel n : Nat) (ds : List Char) :
    Nat.toDigitsCore 10 (fuel + 1) n ds ≠ [] := by
  induction fuel generalizing n ds with
  | zero =>
    unfold Nat.toDigitsCore
    dsimp only
    split <;> simp [Nat.toDigitsCore]
  | succ fuel ih =>
    unfold Nat.toDigitsCore
    dsimp only
    split
    · simp
    · exact ih _ _

/-- The decimal text of a natural number consists of digits only. -/
theorem fmtInt_natCast_isDigit (n : Nat) : ∀ c ∈ fmtInt (n : Int), c.isDigit = true := by
  unfold fmtInt
  rw [if_neg (by omega)]
  exact toDigitsCore_isDigit _ _ [] (by simp)

/-- The decimal text of an integer is never empty. -/
theorem fmtInt_ne_nil (n : Int) : fmtInt n ≠ [] := by
  unfold fmtInt
  split
  · simp
  · exact toDigitsCore_ne_nil _ _ _

/-- A separator with a character that is not a digit does not start a string
that begins with a digit run followed by the separator itself. -/
theorem not_prefix_digits_append {a sep : GoString} (b : GoString) (ha : a ≠ [])
    (hdig : ∀ c ∈ a, c.isDigit = true) (hsep : ∃ c ∈ sep, c.isDigit = false) :
    ¬ sep <+: a ++ sep ++ b := by
  -- split the separator at its first character that is not a digit
  have hsplit : ∀ l : GoString, (∃ c ∈ l, c.isDigit = false) →
      ∃ (u : GoString) (x : Char) (t : GoString), l = u ++ x :: t ∧
        (∀ c ∈ u, c.isDigit = true) ∧ x.isDigit = false := by
    intro l
    induction l with
    | nil => rintro ⟨c, hc, _⟩; simp at hc
    | cons y l ih =>
      rintro ⟨c, hc, hcd⟩
      by_cases hy : y.isDigit = true
      · rcases List.mem_cons.1 hc with rfl | hc
        · rw [hy] at hcd; cases hcd
        · obtain ⟨u, x, t, e, hu, hx⟩ := ih ⟨c, hc, hcd⟩
          refine ⟨y :: u, x, t, by simp [e], ?_, hx⟩
          intro c hc
          rcases List.mem_cons.1 hc with rfl | hc
          · exact hy
          · exact hu c hc
      · exact ⟨[], y, l, rfl, by simp, by simpa using hy⟩
  obtain ⟨u, x, t, e, hu, hx⟩ := hsplit sep hsep
  rintro ⟨v, hv⟩
  -- character number `u.length` is `x` on one side and a digit on the other
  have h1 : (sep ++ v)[u.length]? = some x := by
    rw [e, List.append_assoc, List.getElem?_append_right (le_refl _)]
    simp
  have hlt : u.length < (a ++ u).length := by
    have := List.length_pos.2 ha
    simp
    omega
  have h2 : (a ++ sep ++ b)[u.length]? = (a ++ u)[u.length]? := by
    rw [e]
    have : a ++ (u ++ x :: t) ++ b = (a ++ u) ++ (x :: t ++ b) := by simp
    rw [this, List.getElem?_append_left hlt]
  rw [hv, h2, List.getElem?_eq_getElem hlt] at h1
  have hm : (a ++ u)[u.length] ∈ a ++ u := List.getElem_mem _
  have hx2 : x ∈ a ++ u := by
    have := Option.some.inj h1
    rw [← this]
    exact hm
  rcases List.mem_append.1 hx2 with h | h
  · rw [hdig x h] at hx; cases hx
  · rw [hu x h] at hx; cases hx

/-- In `a ++ sep ++ b`, with `a` a run of digits and `sep` holding a character
that is not a digit, the first occurrence of `sep` is right after `a`. -/
theorem Index_digits_append {sep : GoString} (b : GoString)
    (hsep : ∃ c ∈ sep, c.isDigit = false) :
    ∀ a : GoString, (∀ c ∈ a, c.isDigit = true) → Index (a ++ sep ++ b) sep = some a.length
  | [], _ => by
    obtain ⟨c, hc, _⟩ := hsep
    cases sep with
    | nil => simp at hc
    | cons y l =>
      have : HasPrefix (y :: (l ++ b)) (y :: l) = true :=
        (HasPrefix_iff _ _).2 (List.prefix_append (y :: l) b)
      simp [Index, this]
  | x :: a, ha => by
    have hnp : ¬ HasPrefix (x :: a ++ sep ++ b) sep = true := fun h =>
      not_prefix_digits_append b (by simp) ha hsep ((HasPrefix_iff _ _).1 h)
    have ih := Index_digits_append b hsep a (fun c hc => ha c (List.mem_cons_of_mem _ hc))
    have e : x :: a ++ sep ++ b = x :: (a ++ sep ++ b) := by simp
    rw [e] at hnp ⊢
    unfold Index
    rw [if_neg hnp, ih]
    rfl

/-- A run of digits holds no occurrence of a separator that has a character
which is not a digit. -/
theorem Index_digits_eq_none {sep : GoString} (hsep : ∃ c ∈ sep, c.isDigit = false)
    (b : GoString) (hb : ∀ c ∈ b, c.isDigit = true) : Index b sep = none := by
  cases hi : Index b sep with
  | none => rfl
  | some m =>
    exfalso
    have hinf : sep <:+: b := (Index_isSome_iff b).1 (by rw [hi]; rfl)
    obtain ⟨c, hc, hcd⟩ := hsep
    rw [hb c (hinf.subset hc)] at hcd
    cases hcd

/-- Splitting `a ++ sep ++ b` on `sep` gives back `a` and `b`, when both are
runs of digits and `sep` has a character that is not a digit. -/
theorem Split_digits_append {sep a b : GoString} (hsep : ∃ c ∈ sep, c.isDigit = false)
    (ha : ∀ c ∈ a, c.isDigit = true) (hb : ∀ c ∈ b, c.isDigit = true) :
    Split (a ++ sep ++ b) sep = [a, b] := by
  have hne : sep ≠ [] := by
    rintro rfl
    obtain ⟨c, hc, _⟩ := hsep
    simp at hc
  have hi := Index_digits_append b hsep a ha
  obtain ⟨n, hn⟩ := Split_bound_pos hne hi
  unfold Split
  rw [if_neg hne, hn]
  simp only [splitLoop, hi]
  have e1 : List.take a.length (a ++ sep ++ b) = a := by simp
  have e2 : List.drop (a.length + sep.length) (a ++ sep ++ b) = b := by
    have : a.length + sep.length = (a ++ sep).length := by simp
    rw [this, List.drop_left]
  rw [e1, e2, splitLoop_of_Index_none n (Index_digits_eq_none hsep b hb)]

/-! ## Facts about the callbacks -/

section Callbacks

variable (k : Consts) (c : Client ρ σ) (d : ResourceData) (w : World ρ σ)

theorem Read_panic (h1 : (Split d.Id k.ID_DELIMITER)[1]? = none) :
    resourceRepositoryRead k c d w = ⟨Result.panic, d, w⟩ := by
  unfold resourceRepositoryRead
  split
  · rfl
  · rw [h1]

theorem Read_notFound {pid rid : GoString} {e : GoError} {s1 : σ}
    (h0 : (Split d.Id k.ID_DELIMITER)[0]? = some pid)
    (h1 : (Split d.Id k.ID_DELIMITER)[1]? = some rid)
    (hget : c.GetRepository w.remote rid pid d.fetch_deploy_key = (Except.error e, s1))
    (hnf : HasPrefix e.Error "resource-not-found".toList = true) :
    resourceRepositoryRead k c d w =
      ⟨Result.returned [], { d with Id := [] }, afterGet w s1 rid pid d.fetch_deploy_key⟩ := by
  simp only [resourceRepositoryRead, h0, h1, Client.get, hget, hnf, afterGet]
  rfl

theorem Read_error {pid rid : GoString} {e : GoError} {s1 : σ}
    (h0 : (Split d.Id k.ID_DELIMITER)[0]? = some pid)
    (h1 : (Split d.Id k.ID_DELIMITER)[1]? = some rid)
    (hget : c.GetRepository w.remote rid pid d.fetch_deploy_key = (Except.error e, s1))
    (hnf : HasPrefix e.Error "resource-not-found".toList = false) :
    resourceRepositoryRead k c d w =
      ⟨Result.returned (FromErr e), d, afterGet w s1 rid pid d.fetch_deploy_key⟩ := by
  simp only [resourceRepositoryRead, h0, h1, Client.get, hget, hnf, afterGet]
  rfl

theorem Read_ok {pid rid : GoString} {r : Repository ρ} {s1 : σ}
    (h0 : (Split d.Id k.ID_DELIMITER)[0]? = some pid)
    (h1 : (Split d.Id k.ID_DELIMITER)[1]? = some rid)
    (hget : c.GetRepository w.remote rid pid d.fetch_deploy_key = (Except.ok r, s1)) :
    resourceRepositoryRead k c d w =
      ⟨Result.returned [], readInto k d r, afterGet w s1 rid pid d.fetch_deploy_key⟩ := by
  simp [resourceRepositoryRead, h0, h1, Client.get, hget, afterGet, readInto]

theorem Read_panic_zero (h0 : (Split d.Id k.ID_DELIMITER)[0]? = none) :
    resourceRepositoryRead k c d w = ⟨Result.panic, d, w⟩ := by
  simp only [resourceRepositoryRead, h0]

theorem split_components {k : Consts} {id : GoString} (hdelim : k.ID_DELIMITER ≠ [])
    (hid : k.ID_DELIMITER <:+: id) :
    (Split id k.ID_DELIMITER)[0]? = some (projectIdString k id) ∧
      (Split id k.ID_DELIMITER)[1]? = some (repositoryIdString k id) := by
  obtain ⟨a, ha⟩ := Split_zero_isSome hdelim id
  obtain ⟨b, hb⟩ := (Split_one_isSome_iff hdelim id).2 hid
  simp [projectIdString, repositoryIdString, List.getD_eq_getElem?_getD, ha, hb]

/-- Once both components exist, `resourceRepositoryRead` makes exactly one
call, `GetRepository(repositoryIdString, projectIdString, fetchDeployKey)`, and
returns. -/
theorem Read_calls {pid rid : GoString}
    (h0 : (Split d.Id k.ID_DELIMITER)[0]? = some pid)
    (h1 : (Split d.Id k.ID_DELIMITER)[1]? = some rid) :
    (resourceRepositoryRead k c d w).w.calls
        = w.calls ++ [Call.get rid pid d.fetch_deploy_key] ∧
      ∃ ds, (resourceRepositoryRead k c d w).result = Result.returned ds := by
  rcases hg : c.GetRepository w.remote rid pid d.fetch_deploy_key with ⟨e | r, s1⟩
  · cases hnf : HasPrefix e.Error "resource-not-found".toList
    · rw [Read_error k c d w h0 h1 hg hnf]
      exact ⟨rfl, _, rfl⟩
    · rw [Read_notFound k c d w h0 h1 hg hnf]
      exact ⟨rfl, _, rfl⟩
  · rw [Read_ok k c d w h0 h1 hg]
    exact ⟨rfl, _, rfl⟩

theorem Update_panic (h1 : (Split d.Id k.ID_DELIMITER)[1]? = none) :
    resourceRepositoryUpdate k c d w = ⟨Result.panic, d, w⟩ := by
  unfold resourceRepositoryUpdate
  split
  · rfl
  · rw [h1]

theorem Delete_panic (h1 : (Split d.Id k.ID_DELIMITER)[1]? = none) :
    resourceRepositoryDelete k c d w = ⟨Result.panic, d, w⟩ := by
  unfold resourceRepositoryDelete
  split
  · rfl
  · rw [h1]

/-- Without a change of `is_active`, `resourceRepositoryUpdate` is
`resourceRepositoryRead`. -/
theorem Update_unchanged (hch : d.HasChange_is_active = false) :
    resourceRepositoryUpdate k c d w = resourceRepositoryRead k c d w := by
  cases h0 : (Split d.Id k.ID_DELIMITER)[0]? with
  | none =>
    rw [Read_panic_zero k c d w h0]
    simp only [resourceRepositoryUpdate, h0]
  | some pid =>
    cases h1 : (Split d.Id k.ID_DELIMITER)[1]? with
    | none => rw [Read_panic k c d w h1, Update_panic k c d w h1]
    | some rid => simp [resourceRepositoryUpdate, h0, h1, hch]

theorem Update_fetch_error {pid rid : GoString} {e : GoError} {s1 : σ}
    (h0 : (Split d.Id k.ID_DELIMITER)[0]? = some pid)
    (h1 : (Split d.Id k.ID_DELIMITER)[1]? = some rid)
    (hch : d.HasChange_is_active = true)
    (hget : c.GetRepository w.remote rid pid d.fetch_deploy_key = (Except.error e, s1)) :
    resourceRepositoryUpdate k c d w =
      ⟨Result.returned (FromErr e), d, afterGet w s1 rid pid d.fetch_deploy_key⟩ := by
  simp only [resourceRepositoryUpdate, h0, h1, hch, Client.get, hget, afterGet]
  rfl

theorem Update_write_error {pid rid : GoString} {r : Repository ρ} {e : GoError} {s1 s2 : σ}
    (h0 : (Split d.Id k.ID_DELIMITER)[0]? = some pid)
    (h1 : (Split d.Id k.ID_DELIMITER)[1]? = some rid)
    (hch : d.HasChange_is_active = true)
    (hget : c.GetRepository w.remote rid pid d.fetch_deploy_key = (Except.ok r, s1))
    (hupd : c.UpdateRepository s1 rid pid { r with State := stateOf k d.is_active }
      = (Except.error e, s2)) :
    resourceRepositoryUpdate k c d w =
      ⟨Result.returned (FromErr e), d, afterUpdate k d w s2 rid pid r⟩ := by
  unfold stateOf at hupd
  cases hb : d.is_active <;> rw [hb] at hupd <;>
    simp at hupd <;>
    simp [resourceRepositoryUpdate, h0, h1, hch, Client.get, hget, Client.update, hupd,
      afterUpdate, hb, stateOf]

theorem Update_write_ok {pid rid : GoString} {r r2 : Repository ρ} {s1 s2 : σ}
    (h0 : (Split d.Id k.ID_DELIMITER)[0]? = some pid)
    (h1 : (Split d.Id k.ID_DELIMITER)[1]? = some rid)
    (hch : d.HasChange_is_active = true)
    (hget : c.GetRepository w.remote rid pid d.fetch_deploy_key = (Except.ok r, s1))
    (hupd : c.UpdateRepository s1 rid pid { r with State := stateOf k d.is_active }
      = (Except.ok r2, s2)) :
    resourceRepositoryUpdate k c d w =
      resourceRepositoryRead k c d (afterUpdate k d w s2 rid pid r) := by
  unfold stateOf at hupd
  cases hb : d.is_active <;> rw [hb] at hupd <;>
    simp at hupd <;>
    simp [resourceRepositoryUpdate, h0, h1, hch, Client.get, hget, Client.update, hupd,
      afterUpdate, hb, stateOf]

theorem Delete_error {pid rid : GoString} {e : GoError} {s1 : σ}
    (h0 : (Split d.Id k.ID_DELIMITER)[0]? = some pid)
    (h1 : (Split d.Id k.ID_DELIMITER)[1]? = some rid)
    (hdel : c.DeleteRepository w.remote rid pid = (Except.error e, s1)) :
    resourceRepositoryDelete k c d w =
      ⟨Result.returned (FromErr e), d, ⟨s1, w.calls ++ [Call.delete rid pid]⟩⟩ := by
  simp only [resourceRepositoryDelete, h0, h1, Client.delete, hdel]

theorem Delete_ok {pid rid : GoString} {s1 : σ}
    (h0 : (Split d.Id k.ID_DELIMITER)[0]? = some pid)
    (h1 : (Split d.Id k.ID_DELIMITER)[1]? = some rid)
    (hdel : c.DeleteRepository w.remote rid pid = (Except.ok (), s1)) :
    resourceRepositoryDelete k c d w =
      ⟨Result.returned [], d, ⟨s1, w.calls ++ [Call.delete rid pid]⟩⟩ := by
  simp only [resourceRepositoryDelete, h0, h1, Client.delete, hdel]

theorem Delete_calls {pid rid : GoString}
    (h0 : (Split d.Id k.ID_DELIMITER)[0]? = some pid)
    (h1 : (Split d.Id k.ID_DELIMITER)[1]? = some rid) :
    (resourceRepositoryDelete k c d w).w.calls = w.calls ++ [Call.delete rid pid] ∧
      ∃ ds, (resourceRepositoryDelete k c d w).result = Result.returned ds := by
  rcases hg : c.DeleteRepository w.remote rid pid with ⟨e | u, s1⟩
  · rw [Delete_error k c d w h0 h1 hg]
    exact ⟨rfl, _, rfl⟩
  · rw [Delete_ok k c d w h0 h1 hg]
    exact ⟨rfl, _, rfl⟩

/-- Once both components exist, every call of `resourceRepositoryUpdate` carries
them: the log grows by a `GetRepository` call, possibly followed by an
`UpdateRepository` call and a second `GetRepository` call. -/
theorem Update_calls {pid rid : GoString}
    (h0 : (Split d.Id k.ID_DELIMITER)[0]? = some pid)
    (h1 : (Split d.Id k.ID_DELIMITER)[1]? = some rid) :
    (∃ l, (resourceRepositoryUpdate k c d w).w.calls
        = w.calls ++ Call.get rid pid d.fetch_deploy_key :: l ∧
      ∀ x ∈ l, x = Call.get rid pid d.fetch_deploy_key ∨ ∃ r, x = Call.update rid pid r) ∧
      ∃ ds, (resourceRepositoryUpdate k c d w).result = Result.returned ds := by
  cases hch : d.HasChange_is_active
  · rw [Update_unchanged k c d w hch]
    obtain ⟨hc, hr⟩ := Read_calls k c d w h0 h1
    exact ⟨⟨[], hc, by simp⟩, hr⟩
  · rcases hg : c.GetRepository w.remote rid pid d.fetch_deploy_key with ⟨e | r, s1⟩
    · rw [Update_fetch_error k c d w h0 h1 hch hg]
      exact ⟨⟨[], rfl, by simp⟩, _, rfl⟩
    · rcases hu : c.UpdateRepository s1 rid pid { r with State := stateOf k d.is_active }
        with ⟨e | r2, s2⟩
      · rw [Update_write_error k c d w h0 h1 hch hg hu]
        exact ⟨⟨[Call.update rid pid { r with State := stateOf k d.is_active }],
          by simp [afterUpdate], by simp⟩, _, rfl⟩
      · rw [Update_write_ok k c d w h0 h1 hch hg hu]
        obtain ⟨hc, hr⟩ := Read_calls k c d (afterUpdate k d w s2 rid pid r) h0 h1
        refine ⟨⟨[Call.update rid pid { r with State := stateOf k d.is_active },
          Call.get rid pid d.fetch_deploy_key], ?_, ?_⟩, hr⟩
        · rw [hc]
          simp [afterUpdate]
        · intro x hx
          simp only [List.mem_cons, List.mem_singleton, List.not_mem_nil, or_false] at hx
          rcases hx with rfl | rfl
          · exact Or.inr ⟨_, rfl⟩
          · exact Or.inl rfl

theorem components_of_two_le (l : List GoString) (h : 2 ≤ l.length) :
    l[0]? = some (l.getD 0 []) ∧ l[1]? = some (l.getD 1 []) := by
  match l, h with
  | a :: b :: t, _ => simp

/-- The id that `resourceRepositoryCreate` builds always splits into at least
two components, whatever the delimiter and the two numbers. -/
theorem created_components (k : Consts) (p r : Int) :
    (Split (fmtInt p ++ k.ID_DELIMITER ++ fmtInt r) k.ID_DELIMITER)[0]?
        = some (projectIdString k (fmtInt p ++ k.ID_DELIMITER ++ fmtInt r)) ∧
      (Split (fmtInt p ++ k.ID_DELIMITER ++ fmtInt r) k.ID_DELIMITER)[1]?
        = some (repositoryIdString k (fmtInt p ++ k.ID_DELIMITER ++ fmtInt r)) := by
  by_cases hd : k.ID_DELIMITER = []
  · apply components_of_two_le
    have hp := List.length_pos.2 (fmtInt_ne_nil p)
    have hr := List.length_pos.2 (fmtInt_ne_nil r)
    simp only [Split, hd, explode, if_true, List.length_map, List.length_append,
      List.length_nil]
    omega
  · exact split_components hd (List.infix_append _ _ _)

theorem Create_error {e : GoError} {s1 : σ}
    (hcreate : c.CreateRepository w.remote d.project_id d.remote_url d.is_active
      d.git_clone_strategy d.gitlab_project_id (d.github_installation_id.getD 0)
      d.azure_active_directory_project_id d.azure_active_directory_repository_id
      d.azure_bypass_webhook_registration_failure = (Except.error e, s1)) :
    resourceRepositoryCreate k c d w =
      ⟨Result.returned (FromErr e), d, afterCreate d w s1⟩ := by
  simp only [resourceRepositoryCreate, Client.create, hcreate, afterCreate]

theorem Create_ok {rec : Repository ρ} {r : Int} {s1 : σ}
    (hcreate : c.CreateRepository w.remote d.project_id d.remote_url d.is_active
      d.git_clone_strategy d.gitlab_project_id (d.github_installation_id.getD 0)
      d.azure_active_directory_project_id d.azure_active_directory_repository_id
      d.azure_bypass_webhook_registration_failure = (Except.ok rec, s1))
    (hID : rec.ID = some r) :
    resourceRepositoryCreate k c d w =
      match (resourceRepositoryRead k c
          { d with Id := fmtInt rec.ProjectID ++ k.ID_DELIMITER ++ fmtInt r }
          (afterCreate d w s1)).result with
      | Result.panic =>
        resourceRepositoryRead k c
          { d with Id := fmtInt rec.ProjectID ++ k.ID_DELIMITER ++ fmtInt r }
          (afterCreate d w s1)
      | Result.returned _ =>
        ⟨Result.returned [],
          (resourceRepositoryRead k c
            { d with Id := fmtInt rec.ProjectID ++ k.ID_DELIMITER ++ fmtInt r }
            (afterCreate d w s1)).d,
          (resourceRepositoryRead k c
            { d with Id := fmtInt rec.ProjectID ++ k.ID_DELIMITER ++ fmtInt r }
            (afterCreate d w s1)).w⟩ := by
  simp only [resourceRepositoryCreate, Client.create, hcreate, hID, afterCreate]

end Callbacks

/-! ## The claims -/

/-- C1: for a record whose id contains the (non-empty) delimiter, when the
`GetRepository` call of Read returns an error `e`: Read returns no diagnostic
and an empty id exactly when the message of `e` starts with
`resource-not-found`; for any other error it returns the diagnostic of `e` and
keeps the id; in both cases every schema field of the record is as before. -/
theorem C1_read_on_fetch_error (k : Consts) (c : Client ρ σ) (d : ResourceData)
    (w : World ρ σ) (e : GoError) (s1 : σ)
    (hdelim : k.ID_DELIMITER ≠ []) (hid : k.ID_DELIMITER <:+: d.Id)
    (hget : c.GetRepository w.remote (repositoryIdString k d.Id) (projectIdString k d.Id)
      d.fetch_deploy_key = (Except.error e, s1)) :
    (((resourceRepositoryRead k c d w).result = Result.returned [] ∧
        (resourceRepositoryRead k c d w).d.Id = []) ↔
      HasPrefix e.Error "resource-not-found".toList = true) ∧
    (HasPrefix e.Error "resource-not-found".toList = false →
      (resourceRepositoryRead k c d w).result = Result.returned (FromErr e) ∧
        (resourceRepositoryRead k c d w).d.Id = d.Id) ∧
    (resourceRepositoryRead k c d w).d =
      { d with Id := (resourceRepositoryRead k c d w).d.Id } := by
  obtain ⟨h0, h1⟩ := split_components hdelim hid
  cases hnf : HasPrefix e.Error "resource-not-found".toList
  · rw [Read_error k c d w h0 h1 hget hnf]
    simp [FromErr]
  · rw [Read_notFound k c d w h0 h1 hget hnf]
    simp

/-- C1, run: the stored id `10-55` read against an empty store (the fetch fails
with `resource-not-found: repository 55`) gives no diagnostic and an empty
id. -/
theorem C1_read_on_fetch_error_witness :
    (resourceRepositoryRead exConsts storeClient exCreated ⟨none, []⟩).result
        = Result.returned [] ∧
      (resourceRepositoryRead exConsts storeClient exCreated ⟨none, []⟩).d.Id = [] :=
  (C1_read_on_fetch_error exConsts storeClient exCreated ⟨none, []⟩
    ⟨"resource-not-found: repository 55".toList⟩ none (by decide) (by decide)
    rfl).1.2 (by decide)

/-- C2: whatever the client answers, after Read the four fields that the API
does not send back (gitlab_project_id, azure_active_directory_project_id,
azure_active_directory_repository_id, azure_bypass_webhook_registration_failure)
have the values they had before; in particular after every successful
`GetRepository` response. -/
theorem C2_read_keeps_unsent_fields (k : Consts) (c : Client ρ σ) (d : ResourceData)
    (w : World ρ σ) :
    (resourceRepositoryRead k c d w).d.gitlab_project_id = d.gitlab_project_id ∧
    (resourceRepositoryRead k c d w).d.azure_active_directory_project_id
      = d.azure_active_directory_project_id ∧
    (resourceRepositoryRead k c d w).d.azure_active_directory_repository_id
      = d.azure_active_directory_repository_id ∧
    (resourceRepositoryRead k c d w).d.azure_bypass_webhook_registration_failure
      = d.azure_bypass_webhook_registration_failure := by
  cases h0 : (Split d.Id k.ID_DELIMITER)[0]? with
  | none => rw [Read_panic_zero k c d w h0]; simp
  | some pid =>
    cases h1 : (Split d.Id k.ID_DELIMITER)[1]? with
    | none => rw [Read_panic k c d w h1]; simp
    | some rid =>
      rcases hg : c.GetRepository w.remote rid pid d.fetch_deploy_key with ⟨e | r, s1⟩
      · cases hnf : HasPrefix e.Error "resource-not-found".toList
        · rw [Read_error k c d w h0 h1 hg hnf]; simp
        · rw [Read_notFound k c d w h0 h1 hg hnf]; simp
      · rw [Read_ok k c d w h0 h1 hg]; simp [readInto]

/-- C6: for a record whose id contains the (non-empty) delimiter and a
successful `GetRepository` response `r`, Read returns no diagnostic, keeps the
id, and sets repository_id, is_active (true exactly when the state is ACTIVE),
project_id, remote_url, git_clone_strategy, repository_credentials_id,
github_installation_id and deploy_key from `r`. -/
theorem C6_read_maps_response (k : Consts) (c : Client ρ σ) (d : ResourceData)
    (w : World ρ σ) (r : Repository ρ) (s1 : σ)
    (hdelim : k.ID_DELIMITER ≠ []) (hid : k.ID_DELIMITER <:+: d.Id)
    (hget : c.GetRepository w.remote (repositoryIdString k d.Id) (projectIdString k d.Id)
      d.fetch_deploy_key = (Except.ok r, s1)) :
    (resourceRepositoryRead k c d w).result = Result.returned [] ∧
    (resourceRepositoryRead k c d w).d.Id = d.Id ∧
    (resourceRepositoryRead k c d w).d.repository_id = r.ID ∧
    (resourceRepositoryRead k c d w).d.is_active = decide (r.State = k.STATE_ACTIVE) ∧
    (r.State ≠ k.STATE_ACTIVE → (resourceRepositoryRead k c d w).d.is_active = false) ∧
    (resourceRepositoryRead k c d w).d.project_id = r.ProjectID ∧
    (resourceRepositoryRead k c d w).d.remote_url = r.RemoteUrl ∧
    (resourceRepositoryRead k c d w).d.git_clone_strategy = r.GitCloneStrategy ∧
    (resourceRepositoryRead k c d w).d.repository_credentials_id
      = r.RepositoryCredentialsID ∧
    (resourceRepositoryRead k c d w).d.github_installation_id = r.GithubInstallationID ∧
    (resourceRepositoryRead k c d w).d.deploy_key = r.DeployKey.PublicKey := by
  obtain ⟨h0, h1⟩ := split_components hdelim hid
  rw [Read_ok k c d w h0 h1 hget]
  simp [readInto]

/-- C6, run: reading the id `10-55` against a store that holds a deleted record
with other values gives no diagnostic and the values of that record. -/
theorem C6_read_maps_response_witness :
    (resourceRepositoryRead exConsts storeClient exCreated ⟨some exDeleted, []⟩).result
        = Result.returned [] ∧
      (resourceRepositoryRead exConsts storeClient exCreated ⟨some exDeleted, []⟩).d.is_active
        = false ∧
      (resourceRepositoryRead exConsts storeClient exCreated ⟨some exDeleted, []⟩).d.deploy_key
        = "ssh-rsa AAAA".toList :=
  have h := C6_read_maps_response exConsts storeClient exCreated ⟨some exDeleted, []⟩
    exDeleted (some exDeleted) (by decide) (by decide) rfl
  ⟨h.1, h.2.2.2.2.1 (by decide), h.2.2.2.2.2.2.2.2.2.2⟩

/-- C10: with a non-empty delimiter, Read, Update and Delete make a client call
exactly when the id contains the delimiter.  If it does, components 0 and 1 of
the split both exist and each callback returns; if it does not (as for the
empty id), component 1 is out of range and each callback panics with the record
and the call log untouched. -/
theorem C10_client_reached_iff_delimiter (k : Consts) (c : Client ρ σ) (d : ResourceData)
    (w : World ρ σ) (hdelim : k.ID_DELIMITER ≠ []) :
    (k.ID_DELIMITER <:+: d.Id →
      (∃ a, (Split d.Id k.ID_DELIMITER)[0]? = some a) ∧
      (∃ b, (Split d.Id k.ID_DELIMITER)[1]? = some b) ∧
      (∃ ds, (resourceRepositoryRead k c d w).result = Result.returned ds) ∧
      (∃ ds, (resourceRepositoryUpdate k c d w).result = Result.returned ds) ∧
      (∃ ds, (resourceRepositoryDelete k c d w).result = Result.returned ds)) ∧
    (¬ k.ID_DELIMITER <:+: d.Id →
      (Split d.Id k.ID_DELIMITER)[1]? = none ∧
      resourceRepositoryRead k c d w = ⟨Result.panic, d, w⟩ ∧
      resourceRepositoryUpdate k c d w = ⟨Result.panic, d, w⟩ ∧
      resourceRepositoryDelete k c d w = ⟨Result.panic, d, w⟩) ∧
    ((resourceRepositoryRead k c d w).w.calls ≠ w.calls ↔ k.ID_DELIMITER <:+: d.Id) ∧
    ((resourceRepositoryUpdate k c d w).w.calls ≠ w.calls ↔ k.ID_DELIMITER <:+: d.Id) ∧
    ((resourceRepositoryDelete k c d w).w.calls ≠ w.calls ↔ k.ID_DELIMITER <:+: d.Id) ∧
    (resourceRepositoryRead k c { d with Id := [] } w).result = Result.panic := by
  have hpos : k.ID_DELIMITER <:+: d.Id →
      (∃ a, (Split d.Id k.ID_DELIMITER)[0]? = some a) ∧
      (∃ b, (Split d.Id k.ID_DELIMITER)[1]? = some b) ∧
      (∃ ds, (resourceRepositoryRead k c d w).result = Result.returned ds) ∧
      (∃ ds, (resourceRepositoryUpdate k c d w).result = Result.returned ds) ∧
      (∃ ds, (resourceRepositoryDelete k c d w).result = Result.returned ds) := by
    intro hid
    obtain ⟨h0, h1⟩ := split_components hdelim hid
    exact ⟨⟨_, h0⟩, ⟨_, h1⟩, (Read_calls k c d w h0 h1).2, (Update_calls k c d w h0 h1).2,
      (Delete_calls k c d w h0 h1).2⟩
  have hneg : ¬ k.ID_DELIMITER <:+: d.Id →
      (Split d.Id k.ID_DELIMITER)[1]? = none ∧
      resourceRepositoryRead k c d w = ⟨Result.panic, d, w⟩ ∧
      resourceRepositoryUpdate k c d w = ⟨Result.panic, d, w⟩ ∧
      resourceRepositoryDelete k c d w = ⟨Result.panic, d, w⟩ := by
    intro hid
    have h1 := Split_one_eq_none hdelim d.Id hid
    exact ⟨h1, Read_panic k c d w h1, Update_panic k c d w h1, Delete_panic k c d w h1⟩
  refine ⟨hpos, hneg, ?_, ?_, ?_, ?_⟩
  · constructor
    · intro hne
      by_contra hid
      rw [(hneg hid).2.1] at hne
      exact hne rfl
    · intro hid
      obtain ⟨h0, h1⟩ := split_components hdelim hid
      rw [(Read_calls k c d w h0 h1).1]
      simp
  · constructor
    · intro hne
      by_contra hid
      rw [(hneg hid).2.2.1] at hne
      exact hne rfl
    · intro hid
      obtain ⟨h0, h1⟩ := split_components hdelim hid
      obtain ⟨l, hl, _⟩ := (Update_calls k c d w h0 h1).1
      rw [hl]
      simp
  · constructor
    · intro hne
      by_contra hid
      rw [(hneg hid).2.2.2] at hne
      exact hne rfl
    · intro hid
      obtain ⟨h0, h1⟩ := split_components hdelim hid
      rw [(Delete_calls k c d w h0 h1).1]
      simp
  · have h1 : (Split ({ d with Id := [] } : ResourceData).Id k.ID_DELIMITER)[1]? = none :=
      Split_one_eq_none hdelim [] (by simpa using hdelim)
    rw [Read_panic k c _ w h1]

/-- C10, run: with the delimiter `-`, reading the id `1055` panics before any
call, and reading the id `10-55` makes a call. -/
theorem C10_client_reached_iff_delimiter_witness :
    resourceRepositoryRead exConsts storeClient { exCreated with Id := "1055".toList }
        ⟨some exRepo, []⟩
      = ⟨Result.panic, { exCreated with Id := "1055".toList }, ⟨some exRepo, []⟩⟩ ∧
    (resourceRepositoryRead exConsts storeClient exCreated ⟨some exRepo, []⟩).w.calls ≠ [] :=
  ⟨((C10_client_reached_iff_delimiter exConsts storeClient
      { exCreated with Id := "1055".toList } ⟨some exRepo, []⟩ (by decide)).2.1
      (by decide)).2.1,
    (C10_client_reached_iff_delimiter exConsts storeClient exCreated ⟨some exRepo, []⟩
      (by decide)).2.2.1.2 (by decide)⟩

/-- C9: for natural numbers `p` and `r` and a delimiter with at least one
character that is not a digit, the id `decimal(p) ++ delimiter ++ decimal(r)`
splits into exactly `decimal(p)` and `decimal(r)`; on a record with that id
Read calls `GetRepository(decimal(r), decimal(p), _)` once, Delete calls
`DeleteRepository(decimal(r), decimal(p))` once, and every call of Update is a
`GetRepository` or an `UpdateRepository` with `decimal(r)`, `decimal(p)` as its
first two arguments, starting with a `GetRepository`. -/
theorem C9_composite_id_round_trip (k : Consts) (c : Client ρ σ) (d : ResourceData)
    (w : World ρ σ) (p r : Nat)
    (hdelim : ∃ ch ∈ k.ID_DELIMITER, ch.isDigit = false)
    (hid : d.Id = fmtInt p ++ k.ID_DELIMITER ++ fmtInt r) :
    Split d.Id k.ID_DELIMITER = [fmtInt p, fmtInt r] ∧
    (Split d.Id k.ID_DELIMITER)[0]? = some (fmtInt p) ∧
    (Split d.Id k.ID_DELIMITER)[1]? = some (fmtInt r) ∧
    (resourceRepositoryRead k c d w).w.calls
      = w.calls ++ [Call.get (fmtInt r) (fmtInt p) d.fetch_deploy_key] ∧
    (resourceRepositoryDelete k c d w).w.calls
      = w.calls ++ [Call.delete (fmtInt r) (fmtInt p)] ∧
    (∃ l, (resourceRepositoryUpdate k c d w).w.calls
        = w.calls ++ Call.get (fmtInt r) (fmtInt p) d.fetch_deploy_key :: l ∧
      ∀ x ∈ l, x = Call.get (fmtInt r) (fmtInt p) d.fetch_deploy_key ∨
        ∃ rec, x = Call.update (fmtInt r) (fmtInt p) rec) := by
  have hs : Split d.Id k.ID_DELIMITER = [fmtInt p, fmtInt r] := by
    rw [hid]
    exact Split_digits_append hdelim (fmtInt_natCast_isDigit p) (fmtInt_natCast_isDigit r)
  have h0 : (Split d.Id k.ID_DELIMITER)[0]? = some (fmtInt p) := by rw [hs]; rfl
  have h1 : (Split d.Id k.ID_DELIMITER)[1]? = some (fmtInt r) := by rw [hs]; rfl
  exact ⟨hs, h0, h1, (Read_calls k c d w h0 h1).1, (Delete_calls k c d w h0 h1).1,
    (Update_calls k c d w h0 h1).1⟩

/-- C9, run: with the delimiter `-`, the id of project 10 and repository 55 is
`10-55`; Delete on it calls `DeleteRepository("55", "10")`. -/
theorem C9_composite_id_round_trip_witness :
    Split exCreated.Id exConsts.ID_DELIMITER = [fmtInt (10 : Nat), fmtInt (55 : Nat)] ∧
    (resourceRepositoryDelete exConsts storeClient exCreated ⟨some exRepo, []⟩).w.calls
      = [] ++ [Call.delete (fmtInt (55 : Nat)) (fmtInt (10 : Nat))] :=
  have h := C9_composite_id_round_trip exConsts storeClient exCreated ⟨some exRepo, []⟩
    10 55 ⟨'-', by decide, by decide⟩ (by decide)
  ⟨h.1, h.2.2.2.2.1⟩

/-- C4: for a record whose id contains the (non-empty) delimiter and whose
is_active has not changed, Update is Read on the same record and client (same
result, same record, same world), and the only call it adds to the log is the
one `GetRepository` of that Read: `UpdateRepository` is not called. -/
theorem C4_update_without_change_is_read (k : Consts) (c : Client ρ σ) (d : ResourceData)
    (w : World ρ σ) (hdelim : k.ID_DELIMITER ≠ []) (hid : k.ID_DELIMITER <:+: d.Id)
    (hch : d.HasChange_is_active = false) :
    resourceRepositoryUpdate k c d w = resourceRepositoryRead k c d w ∧
    (resourceRepositoryUpdate k c d w).w.calls
      = w.calls ++ [Call.get (repositoryIdString k d.Id) (projectIdString k d.Id)
          d.fetch_deploy_key] := by
  obtain ⟨h0, h1⟩ := split_components hdelim hid
  rw [Update_unchanged k c d w hch]
  exact ⟨rfl, (Read_calls k c d w h0 h1).1⟩

/-- C4, run: an update of the record `10-55` with is_active unchanged makes the
single call `GetRepository("55", "10", false)`. -/
theorem C4_update_without_change_is_read_witness :
    (resourceRepositoryUpdate exConsts storeClient exCreated ⟨some exRepo, []⟩).w.calls
      = [] ++ [Call.get (repositoryIdString exConsts exCreated.Id)
          (projectIdString exConsts exCreated.Id) exCreated.fetch_deploy_key] :=
  (C4_update_without_change_is_read exConsts storeClient exCreated ⟨some exRepo, []⟩
    (by decide) (by decide) rfl).2

/-- C5: in an Update where is_active changed and the fetch succeeds with `R`,
the second call is `UpdateRepository` with `R` whose State is replaced by ACTIVE
when is_active is true and by DELETED when it is false, every other member
being that of `R`; after it the log holds nothing more (the update failed) or
one trailing `GetRepository`.  When that update succeeds, Update is the trailing
Read run after these two calls and the log ends with its `GetRepository`.  When
this fetch answers a record `R2`, Update returns no diagnostic and the record
is read from `R2`: is_active is true exactly when the State of `R2` is ACTIVE,
whatever value was planned.  Consequently, when `R2` is the record that was
sent and ACTIVE differs from DELETED, is_active is the wanted value, being true
exactly when the State that was sent is ACTIVE. -/
theorem C5_update_sends_toggled_state (k : Consts) (c : Client ρ σ) (d : ResourceData)
    (w : World ρ σ) (R : Repository ρ) (s1 : σ)
    (hdelim : k.ID_DELIMITER ≠ []) (hid : k.ID_DELIMITER <:+: d.Id)
    (hch : d.HasChange_is_active = true)
    (hget : c.GetRepository w.remote (repositoryIdString k d.Id) (projectIdString k d.Id)
      d.fetch_deploy_key = (Except.ok R, s1)) :
    (∃ l, (resourceRepositoryUpdate k c d w).w.calls
      = w.calls ++
        [Call.get (repositoryIdString k d.Id) (projectIdString k d.Id) d.fetch_deploy_key,
         Call.update (repositoryIdString k d.Id) (projectIdString k d.Id)
          { R with State := if d.is_active then k.STATE_ACTIVE else k.STATE_DELETED }]
        ++ l ∧
      (l = [] ∨ l = [Call.get (repositoryIdString k d.Id) (projectIdString k d.Id)
        d.fetch_deploy_key])) ∧
    (∀ (r2 : Repository ρ) (s2 : σ),
      c.UpdateRepository s1 (repositoryIdString k d.Id) (projectIdString k d.Id)
        { R with State := if d.is_active then k.STATE_ACTIVE else k.STATE_DELETED }
        = (Except.ok r2, s2) →
      resourceRepositoryUpdate k c d w
        = resourceRepositoryRead k c d ⟨s2, w.calls ++
          [Call.get (repositoryIdString k d.Id) (projectIdString k d.Id) d.fetch_deploy_key,
           Call.update (repositoryIdString k d.Id) (projectIdString k d.Id)
            { R with State := if d.is_active then k.STATE_ACTIVE else k.STATE_DELETED }]⟩ ∧
      (resourceRepositoryUpdate k c d w).w.calls
        = w.calls ++
          [Call.get (repositoryIdString k d.Id) (projectIdString k d.Id) d.fetch_deploy_key,
           Call.update (repositoryIdString k d.Id) (projectIdString k d.Id)
            { R with State := if d.is_active then k.STATE_ACTIVE else k.STATE_DELETED },
           Call.get (repositoryIdString k d.Id) (projectIdString k d.Id)
            d.fetch_deploy_key] ∧
      (∀ (R2 : Repository ρ) (s3 : σ),
        c.GetRepository s2 (repositoryIdString k d.Id) (projectIdString k d.Id)
          d.fetch_deploy_key = (Except.ok R2, s3) →
        (resourceRepositoryUpdate k c d w).result = Result.returned [] ∧
        (resourceRepositoryUpdate k c d w).w.remote = s3 ∧
        (resourceRepositoryUpdate k c d w).d.Id = d.Id ∧
        (resourceRepositoryUpdate k c d w).d.is_active
          = decide (R2.State = k.STATE_ACTIVE) ∧
        (resourceRepositoryUpdate k c d w).d.repository_id = R2.ID ∧
        (resourceRepositoryUpdate k c d w).d.repository_credentials_id
          = R2.RepositoryCredentialsID ∧
        (resourceRepositoryUpdate k c d w).d.deploy_key = R2.DeployKey.PublicKey ∧
        (k.STATE_ACTIVE ≠ k.STATE_DELETED →
          R2 = { R with State := if d.is_active then k.STATE_ACTIVE else k.STATE_DELETED } →
          (resourceRepositoryUpdate k c d w).d.is_active = d.is_active ∧
          ((resourceRepositoryUpdate k c d w).d.is_active = true ↔
            R2.State = k.STATE_ACTIVE) ∧
          ((resourceRepositoryUpdate k c d w).d.is_active = false ↔
            R2.State = k.STATE_DELETED)))) := by
  obtain ⟨h0, h1⟩ := split_components hdelim hid
  constructor
  · rcases hu : c.UpdateRepository s1 (repositoryIdString k d.Id) (projectIdString k d.Id)
        { R with State := stateOf k d.is_active } with ⟨e | r2, s2⟩
    · rw [Update_write_error k c d w h0 h1 hch hget hu]
      exact ⟨[], by simp [afterUpdate, stateOf], Or.inl rfl⟩
    · rw [Update_write_ok k c d w h0 h1 hch hget hu]
      refine ⟨[Call.get (repositoryIdString k d.Id) (projectIdString k d.Id)
        d.fetch_deploy_key], ?_, Or.inr rfl⟩
      rw [(Read_calls k c d (afterUpdate k d w s2 _ _ R) h0 h1).1]
      simp [afterUpdate, stateOf]
  · intro r2 s2 hu
    have hUR := Update_write_ok k c d w h0 h1 hch hget hu
    refine ⟨?_, ?_, ?_⟩
    · rw [hUR]
      simp [afterUpdate, stateOf]
    · rw [hUR, (Read_calls k c d (afterUpdate k d w s2 _ _ R) h0 h1).1]
      simp [afterUpdate, stateOf]
    · intro R2 s3 hg2
      rw [hUR, Read_ok k c d (afterUpdate k d w s2 _ _ R) h0 h1 hg2]
      refine ⟨rfl, rfl, rfl, rfl, rfl, rfl, rfl, ?_⟩
      intro hne hR2
      subst hR2
      cases hb : d.is_active
      · have hne2 : ¬ k.STATE_DELETED = k.STATE_ACTIVE := fun h => hne h.symm
        simp [readInto, hb, hne2]
      · simp [readInto, hb, hne]

/-- C5, run.  Re-activating the record `10-55` against a store that holds a
deleted record with other values: three calls, no diagnostic, is_active = true
and the deploy key of the stored record.  Switching the active record to
is_active = false: is_active = false is read back.  Against a client that
accepts the update and keeps answering the active record, the same switch ends
with is_active = true: the value comes from the answer, not from the plan. -/
theorem C5_update_sends_toggled_state_witness :
    ((resourceRepositoryUpdate exConsts storeClient exReactivated
        ⟨some exDeleted, []⟩).w.calls
      = [] ++ [Call.get (repositoryIdString exConsts exReactivated.Id)
            (projectIdString exConsts exReactivated.Id) exReactivated.fetch_deploy_key,
          Call.update (repositoryIdString exConsts exReactivated.Id)
            (projectIdString exConsts exReactivated.Id)
            { exDeleted with State := if exReactivated.is_active then exConsts.STATE_ACTIVE
                else exConsts.STATE_DELETED },
          Call.get (repositoryIdString exConsts exReactivated.Id)
            (projectIdString exConsts exReactivated.Id) exReactivated.fetch_deploy_key] ∧
      (resourceRepositoryUpdate exConsts storeClient exReactivated
        ⟨some exDeleted, []⟩).result = Result.returned [] ∧
      (resourceRepositoryUpdate exConsts storeClient exReactivated
        ⟨some exDeleted, []⟩).d.is_active = exReactivated.is_active ∧
      (resourceRepositoryUpdate exConsts storeClient exReactivated
        ⟨some exDeleted, []⟩).d.deploy_key = "ssh-rsa AAAA".toList) ∧
    (resourceRepositoryUpdate exConsts storeClient exToggled ⟨some exRepo, []⟩).d.is_active
      = exToggled.is_active ∧
    (resourceRepositoryUpdate exConsts staleClient exToggled ⟨(), []⟩).d.is_active
      = decide (exRepo.State = exConsts.STATE_ACTIVE) :=
  have h1 := (C5_update_sends_toggled_state exConsts storeClient exReactivated
    ⟨some exDeleted, []⟩ exDeleted (some exDeleted) (by decide) (by decide) rfl rfl).2
    { exDeleted with State := 1 } (some { exDeleted with State := 1 }) rfl
  have h1r := h1.2.2 { exDeleted with State := 1 } (some { exDeleted with State := 1 }) rfl
  have h2 := ((C5_update_sends_toggled_state exConsts storeClient exToggled
    ⟨some exRepo, []⟩ exRepo (some exRepo) (by decide) (by decide) rfl rfl).2
    { exRepo with State := 2 } (some { exRepo with State := 2 }) rfl).2.2
    { exRepo with State := 2 } (some { exRepo with State := 2 }) rfl
  have h3 := ((C5_update_sends_toggled_state exConsts staleClient exToggled
    ⟨(), []⟩ exRepo () (by decide) (by decide) rfl rfl).2
    { exRepo with State := 2 } () rfl).2.2 exRepo () rfl
  ⟨⟨h1.2.1, h1r.1, (h1r.2.2.2.2.2.2.2 (by decide) rfl).1, h1r.2.2.2.2.2.2.1⟩,
    (h2.2.2.2.2.2.2.2 (by decide) rfl).1, h3.2.2.2.1⟩

/-- C8: in an Update where is_active changed, on a record whose id contains the
(non-empty) delimiter.  If the fetch fails with any error, the log grows by that
`GetRepository` call only; if the fetch succeeds and `UpdateRepository` fails,
the log grows by these two calls only (no trailing Read).  In both cases Update
returns the diagnostic of the error and the record is exactly as before. -/
theorem C8_update_failure_keeps_record (k : Consts) (c : Client ρ σ) (d : ResourceData)
    (w : World ρ σ) (hdelim : k.ID_DELIMITER ≠ []) (hid : k.ID_DELIMITER <:+: d.Id)
    (hch : d.HasChange_is_active = true) :
    (∀ (e : GoError) (s1 : σ),
      c.GetRepository w.remote (repositoryIdString k d.Id) (projectIdString k d.Id)
        d.fetch_deploy_key = (Except.error e, s1) →
      (resourceRepositoryUpdate k c d w).result = Result.returned (FromErr e) ∧
      (resourceRepositoryUpdate k c d w).d = d ∧
      (resourceRepositoryUpdate k c d w).w.calls
        = w.calls ++ [Call.get (repositoryIdString k d.Id) (projectIdString k d.Id)
            d.fetch_deploy_key]) ∧
    (∀ (R : Repository ρ) (e : GoError) (s1 s2 : σ),
      c.GetRepository w.remote (repositoryIdString k d.Id) (projectIdString k d.Id)
        d.fetch_deploy_key = (Except.ok R, s1) →
      c.UpdateRepository s1 (repositoryIdString k d.Id) (projectIdString k d.Id)
        { R with State := if d.is_active then k.STATE_ACTIVE else k.STATE_DELETED }
        = (Except.error e, s2) →
      (resourceRepositoryUpdate k c d w).result = Result.returned (FromErr e) ∧
      (resourceRepositoryUpdate k c d w).d = d ∧
      (resourceRepositoryUpdate k c d w).w.calls
        = w.calls ++
          [Call.get (repositoryIdString k d.Id) (projectIdString k d.Id) d.fetch_deploy_key,
           Call.update (repositoryIdString k d.Id) (projectIdString k d.Id)
            { R with State := if d.is_active then k.STATE_ACTIVE else k.STATE_DELETED }]) := by
  obtain ⟨h0, h1⟩ := split_components hdelim hid
  constructor
  · intro e s1 hget
    rw [Update_fetch_error k c d w h0 h1 hch hget]
    exact ⟨rfl, rfl, rfl⟩
  · intro R e s1 s2 hget hu
    rw [Update_write_error k c d w h0 h1 hch hget hu]
    exact ⟨rfl, rfl, by simp [afterUpdate, stateOf]⟩

/-- C8, run: against a client whose fetch times out the update of `10-55`
returns that error after one call; against a client whose fetch succeeds and
whose update is forbidden it returns that error after two calls; the record is
unchanged both times. -/
theorem C8_update_failure_keeps_record_witness :
    ((resourceRepositoryUpdate exConsts readOnlyClient exToggled ⟨false, []⟩).result
        = Result.returned (FromErr ⟨"timeout".toList⟩) ∧
      (resourceRepositoryUpdate exConsts readOnlyClient exToggled ⟨false, []⟩).d
        = exToggled) ∧
    ((resourceRepositoryUpdate exConsts readOnlyClient exToggled ⟨true, []⟩).result
        = Result.returned (FromErr ⟨"forbidden".toList⟩) ∧
      (resourceRepositoryUpdate exConsts readOnlyClient exToggled ⟨true, []⟩).d
        = exToggled) :=
  have ha := (C8_update_failure_keeps_record exConsts readOnlyClient exToggled ⟨false, []⟩
    (by decide) (by decide) rfl).1 ⟨"timeout".toList⟩ false rfl
  have hb := (C8_update_failure_keeps_record exConsts readOnlyClient exToggled ⟨true, []⟩
    (by decide) (by decide) rfl).2 exRepo ⟨"forbidden".toList⟩ true true rfl rfl
  ⟨⟨ha.1, ha.2.1⟩, ⟨hb.1, hb.2.1⟩⟩

/-- C3: when `CreateRepository`, called with the nine values of the record,
returns a record `rec` that carries the given project_id, remote_url and
git_clone_strategy and the id `r`, and the `GetRepository` call of the trailing
Read returns `rec` again, then after Create the id is
`decimal(project_id) ++ delimiter ++ decimal(r)`, repository_id is `r`,
project_id, remote_url and git_clone_strategy are the inputs, is_active is true
exactly when the returned state is ACTIVE, and Create returns no diagnostic. -/
theorem C3_create_then_read (k : Consts) (c : Client ρ σ) (d : ResourceData)
    (w : World ρ σ) (rec : Repository ρ) (r : Int) (s1 s2 : σ)
    (hcreate : c.CreateRepository w.remote d.project_id d.remote_url d.is_active
      d.git_clone_strategy d.gitlab_project_id (d.github_installation_id.getD 0)
      d.azure_active_directory_project_id d.azure_active_directory_repository_id
      d.azure_bypass_webhook_registration_failure = (Except.ok rec, s1))
    (hID : rec.ID = some r) (hproject : rec.ProjectID = d.project_id)
    (hurl : rec.RemoteUrl = d.remote_url)
    (hstrategy : rec.GitCloneStrategy = d.git_clone_strategy)
    (hget : c.GetRepository s1
      (repositoryIdString k (fmtInt d.project_id ++ k.ID_DELIMITER ++ fmtInt r))
      (projectIdString k (fmtInt d.project_id ++ k.ID_DELIMITER ++ fmtInt r))
      d.fetch_deploy_key = (Except.ok rec, s2)) :
    (resourceRepositoryCreate k c d w).result = Result.returned [] ∧
    (resourceRepositoryCreate k c d w).d.Id
      = fmtInt d.project_id ++ k.ID_DELIMITER ++ fmtInt r ∧
    (resourceRepositoryCreate k c d w).d.repository_id = some r ∧
    (resourceRepositoryCreate k c d w).d.project_id = d.project_id ∧
    (resourceRepositoryCreate k c d w).d.remote_url = d.remote_url ∧
    (resourceRepositoryCreate k c d w).d.git_clone_strategy = d.git_clone_strategy ∧
    (resourceRepositoryCreate k c d w).d.is_active
      = decide (rec.State = k.STATE_ACTIVE) := by
  obtain ⟨h0, h1⟩ := created_components k d.project_id r
  have hread := Read_ok k c
    { d with Id := fmtInt d.project_id ++ k.ID_DELIMITER ++ fmtInt r }
    (afterCreate d w s1) h0 h1 hget
  rw [Create_ok k c d w hcreate hID, hproject, hread]
  simp [readInto, hID, hproject, hurl, hstrategy]

/-- C3, run: the example of the spec.  Creating project_id 10 against a client
that returns the record with id 55 in the active state gives the id `10-55`,
repository_id 55 and is_active = true. -/
theorem C3_create_then_read_witness :
    (resourceRepositoryCreate exConsts storeClient exConfig ⟨none, []⟩).d.Id
        = "10-55".toList ∧
      (resourceRepositoryCreate exConsts storeClient exConfig ⟨none, []⟩).d.repository_id
        = some 55 ∧
      (resourceRepositoryCreate exConsts storeClient exConfig ⟨none, []⟩).d.is_active
        = true :=
  have h := C3_create_then_read exConsts storeClient exConfig ⟨none, []⟩ exRepo 55
    (some exRepo) (some exRepo) rfl rfl rfl rfl rfl rfl
  ⟨h.2.1, h.2.2.1, h.2.2.2.2.2.2⟩

/-- C7, at the failing input: Create against a client whose `CreateRepository`
succeeds and whose `GetRepository` fails with the error `boom` (which does not
start with `resource-not-found`).  Create makes both calls and returns no
diagnostic at all: the error of the trailing Read is dropped, while Read itself,
and Update through its trailing Read, return the diagnostic of that error. -/
theorem C7_create_drops_read_error :
    (failingClient "boom".toList).GetRepository () "55".toList "10".toList false
      = (Except.error ⟨"boom".toList⟩, ()) ∧
    HasPrefix "boom".toList "resource-not-found".toList = false ∧
    (resourceRepositoryCreate exConsts (failingClient "boom".toList) exConfig
        ⟨(), []⟩).w.calls
      = [Call.create 10 "git@example.com:org/repo.git".toList true "deploy_key".toList 7 0
          "ado-p".toList "ado-r".toList true,
         Call.get "55".toList "10".toList false] ∧
    (resourceRepositoryCreate exConsts (failingClient "boom".toList) exConfig
        ⟨(), []⟩).result = Result.returned [] ∧
    (resourceRepositoryRead exConsts (failingClient "boom".toList) exCreated
        ⟨(), []⟩).result = Result.returned (FromErr ⟨"boom".toList⟩) ∧
    (resourceRepositoryUpdate exConsts (failingClient "boom".toList) exCreated
        ⟨(), []⟩).result = Result.returned (FromErr ⟨"boom".toList⟩) := by
  refine ⟨rfl, by decide, by decide, by decide, by decide, by decide⟩


end DbtCloud
